import Mathlib

/-!
Shallow embedding of the caching / resolution core of the `scidd-core`
repository (files `scidd/core/scidd.py` and `scidd/core/cache.py`), together
with theorems settling the specification claims about it.

Python strings are modelled as `String`, filesystem state and the SQLite
cache table as association lists, and the network as a record of response
functions.  Python exceptions become explicit error constructors.
-/

namespace SciDDCore

/-! ## Generic string helpers (models of the Python string/path operations) -/

/-- Split a character list at every occurrence of `c`
(model of Python `str.split(c)`; always returns a non-empty list). -/
def splitOnChar (c : Char) : List Char → List (List Char)
  | [] => [[]]
  | a :: as =>
    let r := splitOnChar c as
    if a = c then [] :: r else (a :: r.headD []) :: r.tail

theorem splitOnChar_ne_nil (c : Char) (l : List Char) : splitOnChar c l ≠ [] := by
  cases l with
  | nil => simp [splitOnChar]
  | cons a as => rw [splitOnChar]; split <;> simp

/-- Every piece produced by `splitOnChar c` is free of the separator `c`. -/
theorem splitOnChar_no_sep (c : Char) (l : List Char) :
    ∀ s ∈ splitOnChar c l, c ∉ s := by
  induction l with
  | nil =>
    intro s hs
    rw [splitOnChar] at hs
    simp at hs
    simp [hs]
  | cons a as ih =>
    intro s hs
    rw [splitOnChar] at hs
    by_cases hac : a = c
    · rw [if_pos hac] at hs
      rcases List.mem_cons.mp hs with hs | hs
      · simp [hs]
      · exact ih s hs
    · rw [if_neg hac] at hs
      rcases List.mem_cons.mp hs with hs | hs
      · subst hs
        intro hmem
        rcases List.mem_cons.mp hmem with h1 | h1
        · exact hac h1.symm
        · cases h : splitOnChar c as with
          | nil => exact absurd h (splitOnChar_ne_nil c as)
          | cons t ts =>
            rw [h] at h1
            simp only [List.headD_cons] at h1
            exact ih t (by rw [h]; exact List.mem_cons_self t ts) h1
      · exact ih s (List.mem_of_mem_tail hs)

/-- The text before the first occurrence of `c` (model of Python `s.split(c)[0]`). -/
def beforeFirst (c : Char) (s : String) : String :=
  ⟨(splitOnChar c s.data).headD s.data⟩

/-- The text after the last `/` (model of Python `os.path.basename` for
POSIX-style paths). -/
def basename (s : String) : String :=
  ⟨(splitOnChar '/' s.data).getLastD s.data⟩

/-- Strip every leading `/` (model of Python `str.lstrip("/")`). -/
def lstripSlash (s : String) : String :=
  ⟨s.data.dropWhile (· = '/')⟩

/-- Model of `str.lower()` restricted to ASCII, as used on file extensions. -/
def lowerStr (s : String) : String :=
  ⟨s.data.map Char.toLower⟩

/-- Does the string start with character `c`?  (Used to state the
"never starts with a path separator" invariant.) -/
def startsWithChar (c : Char) (s : String) : Bool :=
  s.data.head? = some c

/-- Model of Python `str.replace(old, new)`: replace every (left-to-right,
non-overlapping) occurrence of `pat` by `rep`.  Structured with fuel so that
it reduces; each step consumes at least one character, so fuel
`l.length + 1` (see `replaceAll`) always suffices. -/
def replaceAllFuel (pat rep : List Char) : Nat → List Char → List Char
  | 0, l => l
  | _ + 1, [] => []
  | fuel + 1, a :: as =>
    if pat ≠ [] ∧ pat.isPrefixOf (a :: as) then
      rep ++ replaceAllFuel pat rep fuel (as.drop (pat.length - 1))
    else a :: replaceAllFuel pat rep fuel as

/-- Model of Python `str.replace(old, new)` over character lists. -/
def replaceAll (pat rep l : List Char) : List Char :=
  replaceAllFuel pat rep (l.length + 1) l

/-- The element after dropping a prefix satisfying `p` cannot satisfy `p`. -/
theorem dropWhile_head_not {α : Type} (p : α → Bool) (l : List α) (c : α)
    (hc : p c = true) : (l.dropWhile p).head? ≠ some c := by
  induction l with
  | nil => simp
  | cons a as ih =>
    rw [List.dropWhile_cons]
    split
    · exact ih
    · next h =>
      simp only [List.head?_cons]
      intro he
      injection he with he
      subst he
      exact h hc

/-! ### A model of `pathlib.PurePosixPath` parent/str

`pathlib` normalises a POSIX path to (absolute?, non-empty segments); `parent`
drops the last segment.  (The `.`-segment normalisation of `pathlib` is not
modelled; no identifier in this system produces `.` segments.) -/

/-- The normalised segments of a POSIX path (empty segments collapse). -/
def pathSegments (s : String) : List String :=
  ((splitOnChar '/' s.data).map (fun l => (⟨l⟩ : String))).filter (fun t => t ≠ "")

/-- Is the path absolute (starts with `/`)? -/
def pathIsAbsolute (s : String) : Bool := startsWithChar '/' s

/-- Render a normalised (absolute?, segments) pair back to a string, the way
`str(pathlib.PurePosixPath(...))` does. -/
def renderPath (abs : Bool) (segs : List String) : String :=
  if abs then "/" ++ String.intercalate "/" segs
  else if segs.isEmpty then "." else String.intercalate "/" segs

/-- Model of `str(pathlib.Path(s).parent)`: drop the final path segment. -/
def pathParent (s : String) : String :=
  renderPath (pathIsAbsolute s) (pathSegments s).dropLast

/-- Model of `os.path.splitext(s)[1]`: the extension (with leading dot) of the
final path component; a component that is nothing but leading dots has no
extension. -/
def splitextExt (s : String) : String :=
  let base := (basename s).data
  -- leading dots of the basename are not extension separators
  let lead := base.takeWhile (· = '.')
  let rest := base.drop lead.length
  match (splitOnChar '.' rest) with
  | [] => ""
  | [_] => ""
  | ps => "." ++ ⟨ps.getLastD []⟩

/-! ## The `SciDD` identifier (`scidd/core/scidd.py`, class `SciDD`) -/

/-- File extensions that are treated as compressed files
(`COMPRESSED_DOT_FILE_EXTENSIONS` in `scidd/core/scidd.py`). -/
def COMPRESSED_DOT_FILE_EXTENSIONS : List String := [".gz", ".bz2", ".zip"]

/-- Wrapper around a SciDD identifier string (`SciDD._scidd`). -/
structure SciDD where
  scidd : String
  deriving DecidableEq, Repr

/-- `SciDD.isValid`: minimal validation — the string must start with the
scheme prefix `scidd:/` (model of `self.scidd.startswith("scidd:/")`). -/
def SciDD.isValidStr (s : String) : Bool := "scidd:/".data.isPrefixOf s.data

/-- `SciDD.__init__`: store the string, raising `ValueError` (here: `none`)
when validation fails. -/
def SciDD.init (s : String) : Option SciDD :=
  if SciDD.isValidStr s then some ⟨s⟩ else none

/-- `SciDD.__str__`: the raw identifier string. -/
def SciDD.toStr (d : SciDD) : String := d.scidd

/-- `SciDD.path`: the identifier with the scheme prefix removed
(`str(self).replace('scidd:', '')`). -/
def SciDD.path (d : SciDD) : String := ⟨replaceAll "scidd:".data [] d.scidd.data⟩

/-- `SciDDFileResource.filename` (the derivation, without the memo): take
`self.path`, drop everything from the first `;` on, and return the last path
component. -/
def SciDD.filename (d : SciDD) : String :=
  basename (beforeFirst ';' d.path)

/-- The filename as the specification describes it: last path segment of the
identifier with the `#`-fragment, the `?`-query and the `;`-delimited
scheme-specific segment all stripped.  (Stated from the spec's words, for
comparison with `SciDD.filename` above.) -/
def SciDD.filenameSpec (d : SciDD) : String :=
  basename (beforeFirst ';' (beforeFirst '?' (beforeFirst '#' d.path)))

/-! ## The Response Cache (`scidd/core/cache.py`, class `LocalAPICache`) -/

/-- A row of the SQLite `cache` table: `(id, query, json_response)`.  The
schema puts a unique index on `query`. -/
structure CacheRow where
  id : Nat
  query : String
  json_response : String
  deriving DecidableEq, Repr

/-- The SQLite database behind `LocalAPICache`: the `cache` table rows plus
the `AUTOINCREMENT` counter feeding the `id` column. -/
structure CacheDB where
  rows : List CacheRow
  nextId : Nat
  deriving Repr

/-- `LocalAPICache.__setitem__`: `REPLACE INTO cache (query, json_response)
VALUES (?,?)` — SQLite deletes every row conflicting on the unique `query`
column, then inserts the new row. -/
def CacheDB.setItem (db : CacheDB) (key value : String) : CacheDB :=
  { rows := db.rows.filter (fun r => r.query ≠ key) ++ [⟨db.nextId, key, value⟩],
    nextId := db.nextId + 1 }

/-- Result of `LocalAPICache.__getitem__`: a value, or a raised `KeyError`. -/
inductive GetResult where
  | ok (value : String)
  | keyError (key : String)
  deriving DecidableEq, Repr

/-- `LocalAPICache.__getitem__`: `SELECT json_response FROM cache WHERE
query=?` with `fetchone()`; a missing row raises `KeyError(key)`. -/
def CacheDB.getItem (db : CacheDB) (key : String) : GetResult :=
  match db.rows.find? (fun r => r.query = key) with
  | some r => .ok r.json_response
  | none => .keyError key

/-! ## Cache manager state (`scidd/core/cache.py`) -/

/-- The `_decompressDownloads` attribute slot of `SciDDCacheManagerBase`;
`none` models the attribute not existing on the object yet. -/
structure CacheManagerAttrs where
  decompressAttr : Option Bool
  deriving Repr

/-- A freshly constructed cache manager: `__init__` never sets
`_decompressDownloads`. -/
def CacheManagerAttrs.init : CacheManagerAttrs := ⟨none⟩

/-- The `SciDDCacheManagerBase.decompressDownloads` getter: when the attribute
is missing it is initialised to `False`, and its value is returned. -/
def CacheManagerAttrs.decompressDownloads (m : CacheManagerAttrs) : Bool :=
  m.decompressAttr.getD false

/-! ### Memo dictionaries (`SciDDFileResource._path_within_cache`)

Python `dict` objects keyed by the cache-manager object are modelled as
association lists keyed by a cache-manager identity (`Nat`). -/

/-- Python `dict[k]` (as `Option`, `none` = `KeyError`). -/
def dictGet (l : List (Nat × String)) (k : Nat) : Option String :=
  match l.find? (fun p => p.1 = k) with
  | some p => some p.2
  | none => none

/-- Python `dict[k] = v`. -/
def dictSet (l : List (Nat × String)) (k : Nat) (v : String) : List (Nat × String) :=
  (k, v) :: l.filter (fun p => p.1 ≠ k)

/-- Remove the redundant `/file/` component:
`re.search("^([^/]+)/file/(.+)", p)`, replaced on a match by
`"{group1}/{group2}"`. -/
def removeFileComponent (p : String) : String :=
  match splitOnChar '/' p.data with
  | first :: f :: rest =>
    if first ≠ [] ∧ f = "file".data ∧ List.intercalate ['/'] rest ≠ [] then
      ⟨first ++ '/' :: List.intercalate ['/'] rest⟩
    else p
  | _ => p

/-- The path computation inside `SciDDCacheManager.pathWithinCache` (the
`KeyError` branch): `str(pathlib.Path(sci_dd.path).parent).lstrip("/")`,
then the `/file/`-component removal. -/
def computePathWithinCache (d : SciDD) : String :=
  removeFileComponent (lstripSlash (pathParent d.path))

/-- `SciDDCacheManager.pathWithinCache`: consult the memo dict
`sci_dd._path_within_cache` (keyed by the cache-manager object, here by its
identity); on a `KeyError`, compute the path and store it.  Returns the path
together with the updated memo dict. -/
def SciDDCacheManager.pathWithinCache (cacheId : Nat) (d : SciDD)
    (memo : List (Nat × String)) : String × List (Nat × String) :=
  match dictGet memo cacheId with
  | some p => (p, memo)
  | none =>
    let p := computePathWithinCache d
    (p, dictSet memo cacheId p)

/-- `SciDDFileResource.pathWithinCache`: consult the same memo dict; on a
miss, delegate to the cache manager's `pathWithinCache` (which itself stores
into the dict) and store the result again. -/
def SciDDFileResource.pathWithinCache (cacheId : Nat) (d : SciDD)
    (memo : List (Nat × String)) : String × List (Nat × String) :=
  match dictGet memo cacheId with
  | some p => (p, memo)
  | none =>
    let pm := SciDDCacheManager.pathWithinCache cacheId d memo
    (pm.1, dictSet pm.2 cacheId pm.1)

/-! ## File resources, the filesystem and the network
(`scidd/core/scidd.py`, class `SciDDFileResource`) -/

/-- HTTP date parsed from a `Last-Modified` header by
`time.strptime(value, "%a, %d %b %Y %H:%M:%S GMT")`. -/
structure HTTPDate where
  day : Nat
  month : Nat
  year : Nat
  hour : Nat
  minute : Nat
  second : Nat
  deriving DecidableEq, Repr

/-- Digits-only decimal parse (`none` when empty or non-digit). -/
def parseNatDigits (l : List Char) : Option Nat :=
  if l ≠ [] ∧ l.all Char.isDigit then
    some (l.foldl (fun n c => n * 10 + (c.toNat - 48)) 0)
  else none

def WEEKDAY_NAMES : List String := ["Mon", "Tue", "Wed", "Thu", "Fri", "Sat", "Sun"]

def MONTH_NAMES : List String :=
  ["Jan", "Feb", "Mar", "Apr", "May", "Jun", "Jul", "Aug", "Sep", "Oct", "Nov", "Dec"]

/-- Model of `time.strptime(value, "%a, %d %b %Y %H:%M:%S GMT")`; `none`
models the `ValueError` that the call raises on a non-matching string. -/
def strptimeLastModified (s : String) : Option HTTPDate :=
  match (splitOnChar ' ' s.data).map (fun l => (⟨l⟩ : String)) with
  | [wd, dd, mon, yyyy, hms, gmt] =>
    match parseNatDigits dd.data, parseNatDigits yyyy.data,
          (splitOnChar ':' hms.data).map parseNatDigits with
    | some day, some year, [some h, some mi, some sec] =>
      if WEEKDAY_NAMES.any (fun w => wd = w ++ ",") ∧ gmt = "GMT" ∧
          MONTH_NAMES.contains mon ∧ 1 ≤ day ∧ day ≤ 31 ∧ h ≤ 23 ∧ mi ≤ 59 ∧ sec ≤ 59 then
        some ⟨day, MONTH_NAMES.indexOf mon + 1, year, h, mi, sec⟩
      else none
    | _, _, _ => none
  | _ => none

/-- `set_file_time_to_last_modified(filepath, response)`: when the
`Last-Modified` header is present, parse it and `os.utime` the file.  The
`KeyError` of a missing header is caught (`except KeyError: pass`); the
`ValueError` that `time.strptime` raises on an unparsable header is **not**
caught and escapes (modelled as `none`). -/
def set_file_time_to_last_modified (mtimes : List (String × HTTPDate))
    (filepath : String) (lastModifiedHeader : Option String) :
    Option (List (String × HTTPDate)) :=
  match lastModifiedHeader with
  | none => some mtimes
  | some v =>
    match strptimeLastModified v with
    | some t => some ((filepath, t) :: mtimes.filter (fun p => p.1 ≠ filepath))
    | none => none

/-- The remote world: the resolver's answer for this identifier and the HTTP
server's behaviour.  Connections are assumed to succeed; the
`requests.exceptions.ConnectionError` branch of `downloadTo` is not modelled
(no claim depends on it). -/
structure Net where
  resolvedUrl : String
  getStatus : String → Nat
  headStatus : String → Nat
  bodySize : String → Nat
  uncompressedSize : String → Nat
  lastModified : String → Option String

/-- The fixed surroundings of a `SciDDFileResource`: its cache manager
(`self.cache`, with an identity for the memo dict, its `path`, and its
`_decompressDownloads` slot) and the network. -/
structure Env where
  cacheId : Nat
  cachePath : String
  cacheAttrs : CacheManagerAttrs
  net : Net

/-- The two `logger.warning` diagnostics inside `downloadTo`. -/
inductive Warn where
  | locationMismatch (expected found : String)
  | noFileFound (url : String)
  deriving DecidableEq, Repr

/-- The mutable state: the instance attributes of a `SciDDFileResource`,
the local filesystem, and a log of the observable effects. -/
structure RState where
  fs : List (String × Nat)
  mtimes : List (String × HTTPDate)
  filepathMemo : Option String
  filenameMemo : Option String
  urlMemo : Option String
  pwcMemo : List (Nat × String)
  resolverCalls : Nat
  getCalls : List String
  headCalls : List String
  warnings : List Warn
  deriving Repr

/-- A freshly constructed `SciDDFileResource` on an empty filesystem with no
effects recorded yet (`SciDDFileResource.__init__`). -/
def RState.fresh (fs : List (String × Nat)) : RState :=
  ⟨fs, [], none, none, none, [], 0, [], [], []⟩

/-- The size of the file at `p`, when it exists. -/
def fsLookup (fs : List (String × Nat)) (p : String) : Option Nat :=
  match fs.find? (fun e => e.1 = p) with
  | some e => some e.2
  | none => none

/-- `Path.unlink`. -/
def fsErase (fs : List (String × Nat)) (p : String) : List (String × Nat) :=
  fs.filter (fun e => e.1 ≠ p)

/-- `open(p, 'wb')` followed by writing `size` bytes. -/
def fsWrite (fs : List (String × Nat)) (p : String) (size : Nat) : List (String × Nat) :=
  (p, size) :: fs.filter (fun e => e.1 ≠ p)

/-- The `filename` property getter, memoised in `self._filename`. -/
def filenameGet (d : SciDD) (st : RState) : String × RState :=
  match st.filenameMemo with
  | some f => (f, st)
  | none =>
    let f := SciDD.filename d
    (f, { st with filenameMemo := some f })

/-- The `filename` property setter: store the new name and reset
`self._filepath` to `None`. -/
def filenameSet (new : String) (st : RState) : RState :=
  { st with filenameMemo := some new, filepathMemo := none }

/-- The `url` property: resolved through `self.resolver.urlForSciDD(self)`
(one network call) and memoised in `self._url`. -/
def urlGet (env : Env) (st : RState) : String × RState :=
  match st.urlMemo with
  | some u => (u, st)
  | none =>
    (env.net.resolvedUrl,
     { st with urlMemo := some env.net.resolvedUrl,
               resolverCalls := st.resolverCalls + 1 })

/-- `pathlib`'s `/` join for the shapes occurring here (relative right side). -/
def joinPath (a b : String) : String := a ++ "/" ++ b

/-- `SciDDFileResource.pathWithinCache` acting on the resource state. -/
def pwcGet (env : Env) (d : SciDD) (st : RState) : String × RState :=
  let pm := SciDDFileResource.pathWithinCache env.cacheId d st.pwcMemo
  (pm.1, { st with pwcMemo := pm.2 })

/-- `self.cache.path / self.pathWithinCache() / self.filename`. -/
def expectedFilepath (env : Env) (d : SciDD) (st : RState) : String × RState :=
  let (pwc, st1) := pwcGet env d st
  let (fname, st2) := filenameGet d st1
  (joinPath (joinPath env.cachePath pwc) fname, st2)

/-- `SciDDFileResource.isInCache`: the expected file must exist; a
zero-length file is `unlink`ed and reported as a miss. -/
def isInCache (env : Env) (d : SciDD) (st : RState) : Bool × RState :=
  let (full, st1) := expectedFilepath env d st
  match fsLookup st1.fs full with
  | none => (false, st1)
  | some 0 => (false, { st1 with fs := fsErase st1.fs full })
  | some (_ + 1) => (true, st1)

/-- Python exceptions that can escape the download / filepath code paths. -/
inductive PyErr where
  | fileResourceCouldNotBeFound
  | notImplementedError
  | nameError
  | valueError
  | fuelExhausted
  deriving DecidableEq, Repr

/-- A returned local path, or a raised exception. -/
inductive PyResult where
  | ok (filepath : String)
  | err (e : PyErr)
  deriving DecidableEq, Repr

/-- `_download_gz_file` and `_download_bz2_file` (identical but for a dead
`os.path.splitext(self.url)` read in the gz variant): GET the URL; a 404
raises `NotImplementedError` (any other HTTP error status falls through the
empty handler); decompress in memory and write under `self.filename` inside
`dir`; set the file time from the response. -/
def download_gz_or_bz2_file (env : Env) (d : SciDD) (url dir : String)
    (isGz : Bool) (st : RState) : PyResult × RState :=
  let st := { st with getCalls := st.getCalls ++ [url] }
  if env.net.getStatus url = 404 then (.err .notImplementedError, st)
  else
    let st := if isGz then (urlGet env st).2 else st
    let (fname, st) := filenameGet d st
    let path_to_write := joinPath dir fname
    let st := { st with fs := fsWrite st.fs path_to_write (env.net.uncompressedSize url) }
    match set_file_time_to_last_modified st.mtimes path_to_write (env.net.lastModified url) with
    | some mt => (.ok path_to_write, { st with mtimes := mt })
    | none => (.err .valueError, st)

/-- `_download_zip_file`: GET the URL (404 → `NotImplementedError`); then
`ZipFile(file=io.BytesIO(data))` reads the undefined name `data` and raises
`NameError` before anything is written. -/
def download_zip_file (env : Env) (url : String) (st : RState) :
    PyResult × RState :=
  let st := { st with getCalls := st.getCalls ++ [url] }
  if env.net.getStatus url = 404 then (.err .notImplementedError, st)
  else (.err .nameError, st)

/-- `_download_compressed_file`: dispatch on the extension. -/
def download_compressed_file (env : Env) (d : SciDD) (url ext dir : String)
    (st : RState) : PyResult × RState :=
  if ext = ".gz" then download_gz_or_bz2_file env d url dir true st
  else if ext = ".bz2" ∨ ext = ".bzip2" then download_gz_or_bz2_file env d url dir false st
  else if ext = ".zip" then download_zip_file env url st
  else (.err .notImplementedError, st)

/-- The 404 fallback loop of `downloadTo`: HEAD-probe `url + ext` for each
known compressed extension in order, stopping at the first 200. -/
def probeExtensions (env : Env) (url : String) :
    List String → RState → Option String × RState
  | [], st => (none, st)
  | ext :: rest, st =>
    let st1 := { st with headCalls := st.headCalls ++ [url ++ ext] }
    if env.net.headStatus (url ++ ext) = 200 then (some ext, st1)
    else probeExtensions env url rest st1

/-- The tail of `downloadTo`: stream the response body for `url` to
`destination_file` in chunks, `set_file_time_to_last_modified`, and return
the destination path. -/
def finishStreamedDownload (env : Env) (url destination : String)
    (st : RState) : PyResult × RState :=
  let st1 := { st with fs := fsWrite st.fs destination (env.net.bodySize url) }
  match set_file_time_to_last_modified st1.mtimes destination (env.net.lastModified url) with
  | some mt => (.ok destination, { st1 with mtimes := mt })
  | none => (.err .valueError, st1)

/-- The compressed-sibling loop inside `filepath`: the first extension whose
sibling `expected + ext` exists on disk. -/
def findCompressedSibling (fs : List (String × Nat)) (expected : String) :
    List String → Option String
  | [] => none
  | ext :: rest =>
    if (fsLookup fs (expected ++ ext)).isSome then some (expected ++ ext)
    else findCompressedSibling fs expected rest

mutual

/-- `SciDDFileResource.downloadTo(path=None)`.  `fuel` only breaks the mutual
recursion with the `filepath` property (which is read on already-cached
paths where it never recurses); directory creation and broken-symlink
detection have no observable effect in this model.  `raise_for_status` is
modelled as raising for any status ≥ 400. -/
def downloadTo : Nat → Env → SciDD → Option String → RState → PyResult × RState
  | 0, _, _, _, st => (.err .fuelExhausted, st)
  | fuel + 1, env, d, pathArg, st0 =>
    -- logger.debug(f"downloading '{self.url}' to: '{path}'"): the f-string
    -- itself resolves the URL, before anything else happens
    let (_, st1) := urlGet env st0
    let (path, st2) :=
      match pathArg with
      | some p => (p, st1)
      | none =>
        let (pwc, s) := pwcGet env d st1
        (joinPath env.cachePath pwc, s)
    let (cached, st3) := isInCache env d st2
    if cached then
      filepathGet fuel env d st3
    else
      let (url0, st4) := urlGet env st3
      let ext0 := lowerStr (splitextExt url0)
      if COMPRESSED_DOT_FILE_EXTENSIONS.contains ext0 ∧
          env.cacheAttrs.decompressDownloads then
        match download_compressed_file env d url0 ext0 path st4 with
        | (.ok fp, st5) =>
          -- self._filepath = ...; then `self._filename = p.name`: `p` is an
          -- undefined name here, so a NameError is raised
          (.err .nameError, { st5 with filepathMemo := some fp })
        | (e, st5) => (e, st5)
      else
        let st5 := { st4 with getCalls := st4.getCalls ++ [url0] }
        let (pwc, st6) := pwcGet env d st5
        let destination0 := joinPath (joinPath env.cachePath pwc) (basename url0)
        let status := env.net.getStatus url0
        if status < 400 then
          finishStreamedDownload env url0 destination0 st6
        else if status = 404 then
          match probeExtensions env url0 COMPRESSED_DOT_FILE_EXTENSIONS st6 with
          | (some extFound, st7) =>
            let url1 := url0 ++ extFound
            let st8 := { st7 with
              warnings := st7.warnings ++ [.locationMismatch url0 url1] }
            if env.cacheAttrs.decompressDownloads then
              match download_compressed_file env d url1 extFound path st8 with
              | (.ok fp, st9) => (.err .nameError, { st9 with filepathMemo := some fp })
              | (e, st9) => (e, st9)
            else
              let st9 := { st8 with getCalls := st8.getCalls ++ [url1] }
              let st10 := filenameSet (basename url1) st9
              let (pwc1, st11) := pwcGet env d st10
              let destination1 := joinPath (joinPath env.cachePath pwc1) (basename url1)
              finishStreamedDownload env url1 destination1 st11
          | (none, st7) =>
            let st8 := { st7 with warnings := st7.warnings ++ [.noFileFound url0] }
            (.err .fileResourceCouldNotBeFound, st8)
        else
          (.err .notImplementedError, st6)

/-- The `filepath` property: memo, then the exact expected cache path, then
compressed-extension siblings, else `downloadTo` into the parent directory
and re-check; a file still absent after a reported-successful download raises
`NotImplementedError`. -/
def filepathGet : Nat → Env → SciDD → RState → PyResult × RState
  | 0, _, _, st => (.err .fuelExhausted, st)
  | fuel + 1, env, d, st =>
    match st.filepathMemo with
    | some fp => (.ok fp, st)
    | none =>
      let (expected, st1) := expectedFilepath env d st
      if (fsLookup st1.fs expected).isSome then
        (.ok expected, { st1 with filepathMemo := some expected })
      else
        match findCompressedSibling st1.fs expected COMPRESSED_DOT_FILE_EXTENSIONS with
        | some p => (.ok p, { st1 with filepathMemo := some p })
        | none =>
          match downloadTo fuel env d (some (pathParent expected)) st1 with
          | (.ok fp, st2) =>
            if (fsLookup st2.fs fp).isSome then
              (.ok fp, { st2 with filepathMemo := some fp })
            else (.err .notImplementedError, st2)
          | (e, st2) => (e, st2)

end

/-! ## Helper lemmas -/

theorem find?_append_of_none {α : Type} (p : α → Bool) (l₁ l₂ : List α)
    (h : ∀ x ∈ l₁, p x = false) : (l₁ ++ l₂).find? p = l₂.find? p := by
  induction l₁ with
  | nil => simp
  | cons a as ih =>
    rw [List.cons_append, List.find?_cons_of_neg _ (by simp [h a (List.mem_cons_self a as)])]
    exact ih (fun x hx => h x (List.mem_cons_of_mem a hx))

/-- `REPLACE INTO` followed by a `SELECT` on the same key returns the value
just written. -/
theorem getItem_setItem_self (db : CacheDB) (k v : String) :
    (db.setItem k v).getItem k = .ok v := by
  unfold CacheDB.getItem CacheDB.setItem
  rw [find?_append_of_none]
  · simp [List.find?_cons]
  · intro r hr
    have := (List.mem_filter.mp hr).2
    simpa using this

/-- After a `REPLACE INTO`, exactly one row carries the written key. -/
theorem countP_setItem_self (db : CacheDB) (k v : String) :
    (db.setItem k v).rows.countP (fun r => r.query = k) = 1 := by
  unfold CacheDB.setItem
  rw [List.countP_append]
  have h0 : (db.rows.filter (fun r => r.query ≠ k)).countP (fun r => r.query = k) = 0 := by
    rw [List.countP_eq_zero]
    intro r hr
    have := (List.mem_filter.mp hr).2
    simpa using this
  simp [h0, List.countP_cons]

/-- A `REPLACE INTO` preserves distinctness of the keys. -/
theorem nodup_setItem (db : CacheDB) (k v : String)
    (hnd : (db.rows.map CacheRow.query).Nodup) :
    ((db.setItem k v).rows.map CacheRow.query).Nodup := by
  unfold CacheDB.setItem
  rw [List.map_append, List.nodup_append]
  refine ⟨?_, by simp, ?_⟩
  · exact hnd.sublist ((List.filter_sublist db.rows).map CacheRow.query)
  · intro a ha hb
    simp only [List.map_cons, List.map_nil, List.mem_singleton] at hb
    subst hb
    rcases List.mem_map.mp ha with ⟨r, hr, hq⟩
    have := (List.mem_filter.mp hr).2
    simp only [decide_not, Bool.not_eq_true', decide_eq_false_iff_not] at this
    exact this hq

/-! ## Claim theorems -/

/-- **C1.**  For every key `k` and values `v`, `v2`: `set(k, v)` then `get(k)`
returns `v`, and a subsequent `set(k, v2)` followed by `get(k)` returns `v2`;
the write with an existing key overwrites the stored row (upsert,
last-write-wins) rather than appending a second row, so the `query` keys of
the table remain unique. -/
theorem C1_response_cache_upsert (db : CacheDB) (k v v2 : String)
    (hnd : (db.rows.map CacheRow.query).Nodup) :
    (db.setItem k v).getItem k = .ok v ∧
    ((db.setItem k v).setItem k v2).getItem k = .ok v2 ∧
    (db.setItem k v).rows.countP (fun r => r.query = k) = 1 ∧
    ((db.setItem k v).rows.map CacheRow.query).Nodup :=
  ⟨getItem_setItem_self db k v, getItem_setItem_self _ k v2,
   countP_setItem_self db k v, nodup_setItem db k v hnd⟩

/-- Witness for `C1_response_cache_upsert` at a concrete database. -/
theorem C1_response_cache_upsert_witness :
    ((⟨[], 1⟩ : CacheDB).rows.map CacheRow.query).Nodup ∧
    ((⟨[], 1⟩ : CacheDB).setItem "q" "a").getItem "q" = .ok "a" ∧
    (((⟨[], 1⟩ : CacheDB).setItem "q" "a").setItem "q" "b").getItem "q" = .ok "b" ∧
    ((⟨[], 1⟩ : CacheDB).setItem "q" "a").rows.countP (fun r => r.query = "q") = 1 ∧
    (((⟨[], 1⟩ : CacheDB).setItem "q" "a").rows.map CacheRow.query).Nodup := by
  have h := C1_response_cache_upsert ⟨[], 1⟩ "q" "a" "b" (by decide)
  exact ⟨by decide, h.1, h.2.1, h.2.2.1, h.2.2.2⟩

/-- **C5.**  `__getitem__` on a key matching no row raises `KeyError`; it
never returns a value. -/
theorem C5_get_absent_raises (db : CacheDB) (k : String)
    (habs : ∀ r ∈ db.rows, r.query ≠ k) :
    db.getItem k = .keyError k ∧ ∀ v, db.getItem k ≠ .ok v := by
  have h : db.getItem k = .keyError k := by
    unfold CacheDB.getItem
    rw [List.find?_eq_none.mpr (fun r hr => by simp [habs r hr])]
  exact ⟨h, fun v hv => by rw [h] at hv; exact GetResult.noConfusion hv⟩

/-- Witness for `C5_get_absent_raises` at a concrete database. -/
theorem C5_get_absent_raises_witness :
    (∀ r ∈ (⟨[⟨1, "other", "x"⟩], 2⟩ : CacheDB).rows, r.query ≠ "missing") ∧
    (⟨[⟨1, "other", "x"⟩], 2⟩ : CacheDB).getItem "missing" = .keyError "missing" := by
  have h := C5_get_absent_raises (⟨[⟨1, "other", "x"⟩], 2⟩ : CacheDB) "missing" (by decide)
  exact ⟨by decide, h.1⟩

/-- **C3.**  Constructing a `SciDD` from a string that begins with the scheme
prefix succeeds and `str(...)` returns the string unchanged (round-trip). -/
theorem C3_parse_roundtrip (s : String) (h : SciDD.isValidStr s = true) :
    (SciDD.init s).map SciDD.toStr = some s := by
  simp [SciDD.init, h, SciDD.toStr]

/-- Witness for `C3_parse_roundtrip` at a concrete identifier. -/
theorem C3_parse_roundtrip_witness :
    SciDD.isValidStr "scidd:/astro/file/galex/gr6/NAME.fits" = true ∧
    (SciDD.init "scidd:/astro/file/galex/gr6/NAME.fits").map SciDD.toStr =
      some "scidd:/astro/file/galex/gr6/NAME.fits" :=
  ⟨by decide, C3_parse_roundtrip _ (by decide)⟩

/-- **C7.**  The claim says the derived filename strips the `#`-fragment and
`?`-query in addition to the `;`-segment; the code only strips from the first
`;` on, so a fragment survives into the filename, contradicting the
`filename` docstring.  Evaluated at the failing input
`scidd:/astro/file/galex/gr6/NAME.fits#frag`. -/
theorem C7_filename_keeps_fragment :
    SciDD.filename ⟨"scidd:/astro/file/galex/gr6/NAME.fits#frag"⟩ = "NAME.fits#frag" ∧
    SciDD.filenameSpec ⟨"scidd:/astro/file/galex/gr6/NAME.fits#frag"⟩ = "NAME.fits" ∧
    SciDD.filename ⟨"scidd:/astro/file/galex/gr6/NAME.fits#frag"⟩ ≠
      SciDD.filenameSpec ⟨"scidd:/astro/file/galex/gr6/NAME.fits#frag"⟩ :=
  ⟨by decide, by decide, by decide⟩

theorem fsLookup_fsErase (fs : List (String × Nat)) (p : String) :
    fsLookup (fsErase fs p) p = none := by
  unfold fsLookup fsErase
  rw [List.find?_eq_none.mpr]
  intro e he
  have := (List.mem_filter.mp he).2
  simpa using this

/-- Computing the expected cache filepath touches only the two memo slots. -/
theorem expectedFilepath_effects (env : Env) (d : SciDD) (st : RState) :
    (expectedFilepath env d st).2.fs = st.fs ∧
    (expectedFilepath env d st).2.mtimes = st.mtimes ∧
    (expectedFilepath env d st).2.resolverCalls = st.resolverCalls ∧
    (expectedFilepath env d st).2.getCalls = st.getCalls ∧
    (expectedFilepath env d st).2.headCalls = st.headCalls ∧
    (expectedFilepath env d st).2.urlMemo = st.urlMemo ∧
    (expectedFilepath env d st).2.filepathMemo = st.filepathMemo := by
  rcases st with ⟨fs, mt, fpm, fnm, um, pwcm, rc, gc, hc, w⟩
  cases fnm <;> exact ⟨rfl, rfl, rfl, rfl, rfl, rfl, rfl⟩

/-! ### Concrete fixtures used by witnesses and counterexamples -/

/-- A concrete file identifier. -/
def d0 : SciDD := ⟨"scidd:/astro/file/galex/gr6/NAME.fits"⟩

/-- A server where everything exists uncompressed and sends no
`Last-Modified` header. -/
def net0 : Net :=
  { resolvedUrl := "http://host/path/NAME.fits",
    getStatus := fun _ => 200,
    headStatus := fun _ => 404,
    bodySize := fun _ => 100,
    uncompressedSize := fun _ => 300,
    lastModified := fun _ => none }

/-- A default-configured cache manager rooted at `/home/u/.scidd_cache`. -/
def env0 : Env := ⟨7, "/home/u/.scidd_cache", CacheManagerAttrs.init, net0⟩

/-- The expected in-cache location of `d0` under `env0`. -/
def expected0 : String := "/home/u/.scidd_cache/astro/galex/gr6/NAME.fits"

/-- A fresh resource state whose cache already holds `d0` as a 5-byte file. -/
def stCached : RState := RState.fresh [(expected0, 5)]

/-- A fresh resource state whose cache holds `d0` as a zero-length file. -/
def stZero : RState := RState.fresh [(expected0, 0)]

/-- **C2.**  `isInCache` finds a zero-length file at the expected cache path,
returns `false`, and the file no longer exists afterwards; it returns `true`
exactly when the expected file exists with non-zero size — and this
zero-length check is performed by every `isInCache` call. -/
theorem C2_zero_length_detection (env : Env) (d : SciDD) (st : RState) :
    (fsLookup st.fs (expectedFilepath env d st).1 = some 0 →
       (isInCache env d st).1 = false ∧
       fsLookup (isInCache env d st).2.fs (expectedFilepath env d st).1 = none) ∧
    ((isInCache env d st).1 = true ↔
       ∃ n, fsLookup st.fs (expectedFilepath env d st).1 = some (n + 1)) := by
  unfold isInCache
  rcases hep : expectedFilepath env d st with ⟨full, st1⟩
  have hfs1 : st1.fs = st.fs := by
    have h := (expectedFilepath_effects env d st).1
    rw [hep] at h
    exact h
  dsimp only
  constructor
  · intro h0
    rw [← hfs1] at h0
    simp only [h0]
    exact ⟨by trivial, fsLookup_fsErase _ _⟩
  · rw [← hfs1]
    cases h : fsLookup st1.fs full with
    | none => simp [h]
    | some n =>
      cases n with
      | zero => simp [h]
      | succ m => simp only [h]; exact ⟨fun _ => ⟨m, rfl⟩, fun _ => by trivial⟩

/-- Witness for `C2_zero_length_detection`: a concrete zero-length file is
reported as a miss and deleted. -/
theorem C2_zero_length_detection_witness :
    fsLookup stZero.fs (expectedFilepath env0 d0 stZero).1 = some 0 ∧
    (isInCache env0 d0 stZero).1 = false ∧
    fsLookup (isInCache env0 d0 stZero).2.fs (expectedFilepath env0 d0 stZero).1 = none :=
  ⟨by decide, ((C2_zero_length_detection env0 d0 stZero).1 (by decide)).1,
   ((C2_zero_length_detection env0 d0 stZero).1 (by decide)).2⟩

theorem dictGet_dictSet_self (l : List (Nat × String)) (k : Nat) (v : String) :
    dictGet (dictSet l k v) k = some v := by
  unfold dictGet dictSet
  rw [List.find?_cons_of_pos _ (by simp)]

theorem dictKeys_nodup_dictSet (l : List (Nat × String)) (k : Nat) (v : String)
    (h : (l.map Prod.fst).Nodup) : ((dictSet l k v).map Prod.fst).Nodup := by
  unfold dictSet
  rw [List.map_cons, List.nodup_cons]
  refine ⟨?_, h.sublist ((List.filter_sublist l).map Prod.fst)⟩
  intro hmem
  rcases List.mem_map.mp hmem with ⟨p, hp, hfst⟩
  have := (List.mem_filter.mp hp).2
  simp only [decide_not, Bool.not_eq_true', decide_eq_false_iff_not] at this
  exact this hfst

/-- A memo miss at both levels of `pathWithinCache` computes the path and
stores it (twice: once by the cache manager, once by the resource). -/
theorem resource_pwc_miss (cacheId : Nat) (d : SciDD) (memo : List (Nat × String))
    (hmiss : dictGet memo cacheId = none) :
    SciDDFileResource.pathWithinCache cacheId d memo =
      (computePathWithinCache d,
       dictSet (dictSet memo cacheId (computePathWithinCache d)) cacheId
         (computePathWithinCache d)) := by
  unfold SciDDFileResource.pathWithinCache SciDDCacheManager.pathWithinCache
  simp only [hmiss]

/-- A memo hit returns the stored path and leaves the memo unchanged. -/
theorem resource_pwc_hit (cacheId : Nat) (d : SciDD) (memo : List (Nat × String))
    (p : String) (hhit : dictGet memo cacheId = some p) :
    SciDDFileResource.pathWithinCache cacheId d memo = (p, memo) := by
  unfold SciDDFileResource.pathWithinCache
  rw [hhit]

/-- The computed path-within-cache never begins with a path separator. -/
theorem computePathWithinCache_no_leading_slash (d : SciDD) :
    startsWithChar '/' (computePathWithinCache d) = false := by
  have hq : (lstripSlash (pathParent d.path)).data.head? ≠ some '/' :=
    dropWhile_head_not (fun c => c = '/') (pathParent d.path).data '/' (by decide)
  unfold computePathWithinCache removeFileComponent
  cases hsp : splitOnChar '/' (lstripSlash (pathParent d.path)).data with
  | nil => simpa [startsWithChar] using hq
  | cons first rest0 =>
    cases rest0 with
    | nil => simpa [startsWithChar] using hq
    | cons f rest =>
      dsimp only
      by_cases hcond : first ≠ [] ∧ f = "file".data ∧ List.intercalate ['/'] rest ≠ []
      · rw [if_pos hcond]
        obtain ⟨hne, -, -⟩ := hcond
        have hnosl : '/' ∉ first :=
          splitOnChar_no_sep '/' _ first (by rw [hsp]; exact List.mem_cons_self _ _)
        cases first with
        | nil => exact absurd rfl hne
        | cons a as =>
          have ha : ¬(a = '/') := fun h => hnosl (h ▸ List.mem_cons_self a as)
          simp [startsWithChar, ha]
      · rw [if_neg hcond]
        simpa [startsWithChar] using hq

/-- **C9.**  `pathWithinCache` yields a relative path that never begins with a
path separator; the value is the deterministic function
`computePathWithinCache` of the identifier; a first call populates the memo
dict (keeping at most one entry per cache root) and a second call returns the
stored value without touching the memo; the default algorithm strips the
scheme prefix and the redundant `/file/` segment while keeping the remaining
directory structure. -/
theorem C9_path_within_cache (cacheId : Nat) (d : SciDD) (memo : List (Nat × String))
    (hmiss : dictGet memo cacheId = none) (hnd : (memo.map Prod.fst).Nodup) :
    (∀ d' : SciDD, startsWithChar '/' (computePathWithinCache d') = false) ∧
    (SciDDFileResource.pathWithinCache cacheId d memo).1 = computePathWithinCache d ∧
    dictGet (SciDDFileResource.pathWithinCache cacheId d memo).2 cacheId =
      some (computePathWithinCache d) ∧
    (((SciDDFileResource.pathWithinCache cacheId d memo).2.map Prod.fst).Nodup) ∧
    SciDDFileResource.pathWithinCache cacheId d
        (SciDDFileResource.pathWithinCache cacheId d memo).2 =
      ((SciDDFileResource.pathWithinCache cacheId d memo).1,
       (SciDDFileResource.pathWithinCache cacheId d memo).2) ∧
    computePathWithinCache ⟨"scidd:/astro/file/galex/gr6/NAME.fits"⟩ = "astro/galex/gr6" := by
  rw [resource_pwc_miss cacheId d memo hmiss]
  refine ⟨computePathWithinCache_no_leading_slash, rfl, dictGet_dictSet_self _ _ _, ?_, ?_, by decide⟩
  · exact dictKeys_nodup_dictSet _ _ _ (dictKeys_nodup_dictSet _ _ _ hnd)
  · exact resource_pwc_hit cacheId d _ _ (dictGet_dictSet_self _ _ _)

/-- Witness for `C9_path_within_cache` on an empty memo dict. -/
theorem C9_path_within_cache_witness :
    dictGet [] 7 = none ∧
    (SciDDFileResource.pathWithinCache 7 d0 []).1 = computePathWithinCache d0 ∧
    dictGet (SciDDFileResource.pathWithinCache 7 d0 []).2 7 =
      some (computePathWithinCache d0) := by
  have h := C9_path_within_cache 7 d0 [] (by decide) (by decide)
  exact ⟨by decide, h.2.1, h.2.2.1⟩

/-! ## Helper lemmas for the download engine -/

theorem fsLookup_fsWrite_self (fs : List (String × Nat)) (p : String) (n : Nat) :
    fsLookup (fsWrite fs p n) p = some n := by
  unfold fsLookup fsWrite
  rw [List.find?_cons_of_pos _ (by simp)]

theorem dictGet_nil (k : Nat) : dictGet [] k = none := rfl

/-- The modification time of the file at `p`, when one was recorded. -/
def mtimeLookup (mt : List (String × HTTPDate)) (p : String) : Option HTTPDate :=
  match mt.find? (fun e => e.1 = p) with
  | some e => some e.2
  | none => none

theorem mtimeLookup_cons_self (rest : List (String × HTTPDate)) (p : String) (t : HTTPDate) :
    mtimeLookup ((p, t) :: rest) p = some t := by
  unfold mtimeLookup
  rw [List.find?_cons_of_pos _ (by simp)]

/-- Streaming a response to disk never touches the effect logs. -/
theorem finishStreamedDownload_effects (env : Env) (url dest : String) (st : RState) :
    (finishStreamedDownload env url dest st).2.warnings = st.warnings ∧
    (finishStreamedDownload env url dest st).2.getCalls = st.getCalls ∧
    (finishStreamedDownload env url dest st).2.headCalls = st.headCalls ∧
    (finishStreamedDownload env url dest st).2.resolverCalls = st.resolverCalls := by
  unfold finishStreamedDownload
  cases h : set_file_time_to_last_modified
      (fsWrite st.fs dest (env.net.bodySize url), st).2.mtimes dest
      (env.net.lastModified url) <;> simp [h]

/-- A gz/bz2 compressed-file download performs exactly one GET on its URL and
emits no HEAD requests or warnings. -/
theorem gz_bz2_effects (env : Env) (d : SciDD) (url dir : String) (b : Bool) (st : RState) :
    (download_gz_or_bz2_file env d url dir b st).2.getCalls = st.getCalls ++ [url] ∧
    (download_gz_or_bz2_file env d url dir b st).2.headCalls = st.headCalls ∧
    (download_gz_or_bz2_file env d url dir b st).2.warnings = st.warnings := by
  rcases st with ⟨fs, mt, fpm, fnm, um, pwcm, rc, gc, hc, w⟩
  unfold download_gz_or_bz2_file urlGet filenameGet
  dsimp only
  split
  · simp
  · cases b <;> cases um <;> cases fnm <;>
      (dsimp only; split <;> simp)

/-- A zip download performs exactly one GET on its URL and emits no HEAD
requests or warnings. -/
theorem zip_effects (env : Env) (url : String) (st : RState) :
    (download_zip_file env url st).2.getCalls = st.getCalls ++ [url] ∧
    (download_zip_file env url st).2.headCalls = st.headCalls ∧
    (download_zip_file env url st).2.warnings = st.warnings := by
  unfold download_zip_file
  split <;> simp

/-- `_download_compressed_file` on a known compressed extension performs
exactly one GET on its URL. -/
theorem compressed_effects (env : Env) (d : SciDD) (url ext dir : String) (st : RState)
    (hext : ext ∈ COMPRESSED_DOT_FILE_EXTENSIONS) :
    (download_compressed_file env d url ext dir st).2.getCalls = st.getCalls ++ [url] ∧
    (download_compressed_file env d url ext dir st).2.headCalls = st.headCalls ∧
    (download_compressed_file env d url ext dir st).2.warnings = st.warnings := by
  unfold COMPRESSED_DOT_FILE_EXTENSIONS at hext
  unfold download_compressed_file
  simp only [List.mem_cons, List.not_mem_nil, or_false] at hext
  rcases hext with h | h | h
  · subst h; simp [gz_bz2_effects]
  · subst h; simp [gz_bz2_effects]
  · subst h; simp [zip_effects]

/-- Full evaluation of `downloadTo` on a fresh resource whose file is already
cached with non-zero size: the URL is resolved (one resolver call, from the
entry `logger.debug` f-string), the cache hit is detected, and the memoised
filepath is returned — with no GET or HEAD request. -/
theorem downloadTo_cached_eval (env : Env) (d : SciDD) (st : RState) (fuel n : Nat)
    (hu : st.urlMemo = none) (hp : st.pwcMemo = []) (hf : st.filenameMemo = none)
    (hfp : st.filepathMemo = none)
    (hc : fsLookup st.fs
      (joinPath (joinPath env.cachePath (computePathWithinCache d)) (SciDD.filename d)) =
      some (n + 1)) :
    downloadTo (fuel + 2) env d none st =
      (.ok (joinPath (joinPath env.cachePath (computePathWithinCache d)) (SciDD.filename d)),
       { st with
          urlMemo := some env.net.resolvedUrl,
          resolverCalls := st.resolverCalls + 1,
          pwcMemo := dictSet (dictSet [] env.cacheId (computePathWithinCache d)) env.cacheId
            (computePathWithinCache d),
          filenameMemo := some (SciDD.filename d),
          filepathMemo := some (joinPath (joinPath env.cachePath (computePathWithinCache d))
            (SciDD.filename d)) }) := by
  unfold downloadTo
  simp only [urlGet, pwcGet, expectedFilepath, isInCache, filenameGet,
    SciDDFileResource.pathWithinCache, SciDDCacheManager.pathWithinCache,
    hu, hp, hf, dictGet_nil, dictGet_dictSet_self]
  simp only [hc]
  unfold filepathGet
  simp [urlGet, pwcGet, expectedFilepath, isInCache, filenameGet,
    SciDDFileResource.pathWithinCache, SciDDCacheManager.pathWithinCache,
    dictGet_nil, dictGet_dictSet_self, hfp, hc]

/-- `isInCache` on a cached non-empty file answers `true` without network
access, and an immediately following `filepath` read returns the expected
path, again with no resolver call, GET or HEAD. -/
theorem isInCache_then_filepath_eval (env : Env) (d : SciDD) (st : RState) (fuel n : Nat)
    (hp : st.pwcMemo = []) (hf : st.filenameMemo = none) (hfp : st.filepathMemo = none)
    (hc : fsLookup st.fs
      (joinPath (joinPath env.cachePath (computePathWithinCache d)) (SciDD.filename d)) =
      some (n + 1)) :
    (isInCache env d st).1 = true ∧
    (isInCache env d st).2.resolverCalls = st.resolverCalls ∧
    (isInCache env d st).2.getCalls = st.getCalls ∧
    (isInCache env d st).2.headCalls = st.headCalls ∧
    (filepathGet (fuel + 1) env d (isInCache env d st).2).1 =
      .ok (joinPath (joinPath env.cachePath (computePathWithinCache d)) (SciDD.filename d)) ∧
    (filepathGet (fuel + 1) env d (isInCache env d st).2).2.resolverCalls = st.resolverCalls ∧
    (filepathGet (fuel + 1) env d (isInCache env d st).2).2.getCalls = st.getCalls ∧
    (filepathGet (fuel + 1) env d (isInCache env d st).2).2.headCalls = st.headCalls := by
  have hic : isInCache env d st =
      (true, { st with
        pwcMemo := dictSet (dictSet [] env.cacheId (computePathWithinCache d)) env.cacheId
          (computePathWithinCache d),
        filenameMemo := some (SciDD.filename d) }) := by
    unfold isInCache
    simp [expectedFilepath, pwcGet, filenameGet,
      SciDDFileResource.pathWithinCache, SciDDCacheManager.pathWithinCache,
      dictGet_nil, dictGet_dictSet_self, hp, hf, hc]
  rw [hic]
  unfold filepathGet
  simp [expectedFilepath, pwcGet, filenameGet,
    SciDDFileResource.pathWithinCache, SciDDCacheManager.pathWithinCache,
    dictGet_nil, dictGet_dictSet_self, hfp, hc]

set_option maxHeartbeats 1000000 in
/-- 404 fallback, first probe hits: `HEAD <url>.gz` answers 200, the
mismatch warning is emitted, the download is retried with a GET against
`<url>.gz`, and exactly one HEAD request was issued. -/
theorem downloadTo404_gz (env : Env) (d : SciDD) (st : RState) (fuel : Nat)
    (hu : st.urlMemo = none) (hp : st.pwcMemo = []) (hf : st.filenameMemo = none)
    (hnc : fsLookup st.fs
      (joinPath (joinPath env.cachePath (computePathWithinCache d)) (SciDD.filename d)) = none)
    (hncomp : COMPRESSED_DOT_FILE_EXTENSIONS.contains
      (lowerStr (splitextExt env.net.resolvedUrl)) = false)
    (h404 : env.net.getStatus env.net.resolvedUrl = 404)
    (hgz : env.net.headStatus (env.net.resolvedUrl ++ ".gz") = 200) :
    Warn.locationMismatch env.net.resolvedUrl (env.net.resolvedUrl ++ ".gz") ∈
      (downloadTo (fuel + 1) env d none st).2.warnings ∧
    (env.net.resolvedUrl ++ ".gz") ∈ (downloadTo (fuel + 1) env d none st).2.getCalls ∧
    (downloadTo (fuel + 1) env d none st).2.headCalls =
      st.headCalls ++ [env.net.resolvedUrl ++ ".gz"] := by
  unfold downloadTo
  simp only [urlGet, pwcGet, expectedFilepath, isInCache, filenameGet, filenameSet,
    SciDDFileResource.pathWithinCache, SciDDCacheManager.pathWithinCache,
    dictGet_nil, dictGet_dictSet_self, hu, hp, hf, hnc, hncomp, h404]
  simp only [Bool.false_eq_true, false_and, if_false, Nat.reduceLT, reduceIte, if_true]
  simp only [COMPRESSED_DOT_FILE_EXTENSIONS, probeExtensions, hgz]
  simp only [if_pos rfl, reduceIte, dictGet_dictSet_self, filenameSet]
  cases hdec : env.cacheAttrs.decompressDownloads
  · simp only [hdec, Bool.false_eq_true, reduceIte]
    refine ⟨?_, ?_, ?_⟩ <;> simp [finishStreamedDownload_effects]
  · simp only [hdec, reduceIte]
    split
    next fp st5 heq =>
      have he := compressed_effects env d (env.net.resolvedUrl ++ ".gz") ".gz"
        (joinPath env.cachePath (computePathWithinCache d))
        { fs := st.fs, mtimes := st.mtimes, filepathMemo := st.filepathMemo,
          filenameMemo := some (SciDD.filename d), urlMemo := some env.net.resolvedUrl,
          pwcMemo := dictSet (dictSet [] env.cacheId (computePathWithinCache d)) env.cacheId
            (computePathWithinCache d),
          resolverCalls := st.resolverCalls + 1, getCalls := st.getCalls ++ [env.net.resolvedUrl],
          headCalls := st.headCalls ++ [env.net.resolvedUrl ++ ".gz"],
          warnings := st.warnings ++
            [Warn.locationMismatch env.net.resolvedUrl (env.net.resolvedUrl ++ ".gz")] }
        (by simp [COMPRESSED_DOT_FILE_EXTENSIONS])
      rw [heq] at he
      simp only at he
      refine ⟨?_, ?_, ?_⟩ <;> simp [he.1, he.2.1, he.2.2]
    next e' st5 heq =>
      have he := compressed_effects env d (env.net.resolvedUrl ++ ".gz") ".gz"
        (joinPath env.cachePath (computePathWithinCache d))
        { fs := st.fs, mtimes := st.mtimes, filepathMemo := st.filepathMemo,
          filenameMemo := some (SciDD.filename d), urlMemo := some env.net.resolvedUrl,
          pwcMemo := dictSet (dictSet [] env.cacheId (computePathWithinCache d)) env.cacheId
            (computePathWithinCache d),
          resolverCalls := st.resolverCalls + 1, getCalls := st.getCalls ++ [env.net.resolvedUrl],
          headCalls := st.headCalls ++ [env.net.resolvedUrl ++ ".gz"],
          warnings := st.warnings ++
            [Warn.locationMismatch env.net.resolvedUrl (env.net.resolvedUrl ++ ".gz")] }
        (by simp [COMPRESSED_DOT_FILE_EXTENSIONS])
      rw [heq] at he
      simp only at he
      refine ⟨?_, ?_, ?_⟩ <;> simp [he.1, he.2.1, he.2.2]

set_option maxHeartbeats 1000000 in
/-- 404 fallback, second probe hits: `.gz` missed, `HEAD <url>.bz2`
answers 200; the warning is emitted, the GET is retried on `<url>.bz2`, and
exactly the two HEAD requests were issued, in order. -/
theorem downloadTo404_bz2 (env : Env) (d : SciDD) (st : RState) (fuel : Nat)
    (hu : st.urlMemo = none) (hp : st.pwcMemo = []) (hf : st.filenameMemo = none)
    (hnc : fsLookup st.fs
      (joinPath (joinPath env.cachePath (computePathWithinCache d)) (SciDD.filename d)) = none)
    (hncomp : COMPRESSED_DOT_FILE_EXTENSIONS.contains
      (lowerStr (splitextExt env.net.resolvedUrl)) = false)
    (h404 : env.net.getStatus env.net.resolvedUrl = 404)
    (hgz : ¬ env.net.headStatus (env.net.resolvedUrl ++ ".gz") = 200)
    (hbz : env.net.headStatus (env.net.resolvedUrl ++ ".bz2") = 200) :
    Warn.locationMismatch env.net.resolvedUrl (env.net.resolvedUrl ++ ".bz2") ∈
      (downloadTo (fuel + 1) env d none st).2.warnings ∧
    (env.net.resolvedUrl ++ ".bz2") ∈ (downloadTo (fuel + 1) env d none st).2.getCalls ∧
    (downloadTo (fuel + 1) env d none st).2.headCalls =
      st.headCalls ++ [env.net.resolvedUrl ++ ".gz", env.net.resolvedUrl ++ ".bz2"] := by
  unfold downloadTo
  simp only [urlGet, pwcGet, expectedFilepath, isInCache, filenameGet, filenameSet,
    SciDDFileResource.pathWithinCache, SciDDCacheManager.pathWithinCache,
    dictGet_nil, dictGet_dictSet_self, hu, hp, hf, hnc, hncomp, h404]
  simp only [Bool.false_eq_true, false_and, if_false, Nat.reduceLT, reduceIte, if_true]
  simp only [COMPRESSED_DOT_FILE_EXTENSIONS, probeExtensions, hgz, hbz]
  simp only [if_pos rfl, reduceIte, dictGet_dictSet_self, filenameSet]
  cases hdec : env.cacheAttrs.decompressDownloads
  · simp only [hdec, Bool.false_eq_true, reduceIte]
    refine ⟨?_, ?_, ?_⟩ <;> simp [finishStreamedDownload_effects]
  · simp only [hdec, reduceIte]
    split
    next fp st5 heq =>
      have he := compressed_effects env d (env.net.resolvedUrl ++ ".bz2") ".bz2"
        (joinPath env.cachePath (computePathWithinCache d))
        { fs := st.fs, mtimes := st.mtimes, filepathMemo := st.filepathMemo,
          filenameMemo := some (SciDD.filename d), urlMemo := some env.net.resolvedUrl,
          pwcMemo := dictSet (dictSet [] env.cacheId (computePathWithinCache d)) env.cacheId
            (computePathWithinCache d),
          resolverCalls := st.resolverCalls + 1, getCalls := st.getCalls ++ [env.net.resolvedUrl],
          headCalls := st.headCalls ++ [env.net.resolvedUrl ++ ".gz"] ++
            [env.net.resolvedUrl ++ ".bz2"],
          warnings := st.warnings ++
            [Warn.locationMismatch env.net.resolvedUrl (env.net.resolvedUrl ++ ".bz2")] }
        (by simp [COMPRESSED_DOT_FILE_EXTENSIONS])
      rw [heq] at he
      simp only at he
      refine ⟨?_, ?_, ?_⟩ <;> simp [he.1, he.2.1, he.2.2]
    next e' st5 heq =>
      have he := compressed_effects env d (env.net.resolvedUrl ++ ".bz2") ".bz2"
        (joinPath env.cachePath (computePathWithinCache d))
        { fs := st.fs, mtimes := st.mtimes, filepathMemo := st.filepathMemo,
          filenameMemo := some (SciDD.filename d), urlMemo := some env.net.resolvedUrl,
          pwcMemo := dictSet (dictSet [] env.cacheId (computePathWithinCache d)) env.cacheId
            (computePathWithinCache d),
          resolverCalls := st.resolverCalls + 1, getCalls := st.getCalls ++ [env.net.resolvedUrl],
          headCalls := st.headCalls ++ [env.net.resolvedUrl ++ ".gz"] ++
            [env.net.resolvedUrl ++ ".bz2"],
          warnings := st.warnings ++
            [Warn.locationMismatch env.net.resolvedUrl (env.net.resolvedUrl ++ ".bz2")] }
        (by simp [COMPRESSED_DOT_FILE_EXTENSIONS])
      rw [heq] at he
      simp only at he
      refine ⟨?_, ?_, ?_⟩ <;> simp [he.1, he.2.1, he.2.2]

set_option maxHeartbeats 1000000 in
/-- 404 fallback, third probe hits: `.gz` and `.bz2` missed,
`HEAD <url>.zip` answers 200; the warning is emitted, the GET is retried on
`<url>.zip`, and exactly the three HEAD requests were issued, in order. -/
theorem downloadTo404_zip (env : Env) (d : SciDD) (st : RState) (fuel : Nat)
    (hu : st.urlMemo = none) (hp : st.pwcMemo = []) (hf : st.filenameMemo = none)
    (hnc : fsLookup st.fs
      (joinPath (joinPath env.cachePath (computePathWithinCache d)) (SciDD.filename d)) = none)
    (hncomp : COMPRESSED_DOT_FILE_EXTENSIONS.contains
      (lowerStr (splitextExt env.net.resolvedUrl)) = false)
    (h404 : env.net.getStatus env.net.resolvedUrl = 404)
    (hgz : ¬ env.net.headStatus (env.net.resolvedUrl ++ ".gz") = 200)
    (hbz : ¬ env.net.headStatus (env.net.resolvedUrl ++ ".bz2") = 200)
    (hzip : env.net.headStatus (env.net.resolvedUrl ++ ".zip") = 200) :
    Warn.locationMismatch env.net.resolvedUrl (env.net.resolvedUrl ++ ".zip") ∈
      (downloadTo (fuel + 1) env d none st).2.warnings ∧
    (env.net.resolvedUrl ++ ".zip") ∈ (downloadTo (fuel + 1) env d none st).2.getCalls ∧
    (downloadTo (fuel + 1) env d none st).2.headCalls =
      st.headCalls ++ [env.net.resolvedUrl ++ ".gz", env.net.resolvedUrl ++ ".bz2",
        env.net.resolvedUrl ++ ".zip"] := by
  unfold downloadTo
  simp only [urlGet, pwcGet, expectedFilepath, isInCache, filenameGet, filenameSet,
    SciDDFileResource.pathWithinCache, SciDDCacheManager.pathWithinCache,
    dictGet_nil, dictGet_dictSet_self, hu, hp, hf, hnc, hncomp, h404]
  simp only [Bool.false_eq_true, false_and, if_false, Nat.reduceLT, reduceIte, if_true]
  simp only [COMPRESSED_DOT_FILE_EXTENSIONS, probeExtensions, hgz, hbz, hzip]
  simp only [if_pos rfl, reduceIte, dictGet_dictSet_self, filenameSet]
  cases hdec : env.cacheAttrs.decompressDownloads
  · simp only [hdec, Bool.false_eq_true, reduceIte]
    refine ⟨?_, ?_, ?_⟩ <;> simp [finishStreamedDownload_effects]
  · simp only [hdec, reduceIte]
    split
    next fp st5 heq =>
      have he := compressed_effects env d (env.net.resolvedUrl ++ ".zip") ".zip"
        (joinPath env.cachePath (computePathWithinCache d))
        { fs := st.fs, mtimes := st.mtimes, filepathMemo := st.filepathMemo,
          filenameMemo := some (SciDD.filename d), urlMemo := some env.net.resolvedUrl,
          pwcMemo := dictSet (dictSet [] env.cacheId (computePathWithinCache d)) env.cacheId
            (computePathWithinCache d),
          resolverCalls := st.resolverCalls + 1, getCalls := st.getCalls ++ [env.net.resolvedUrl],
          headCalls := st.headCalls ++ [env.net.resolvedUrl ++ ".gz"] ++
            [env.net.resolvedUrl ++ ".bz2"] ++ [env.net.resolvedUrl ++ ".zip"],
          warnings := st.warnings ++
            [Warn.locationMismatch env.net.resolvedUrl (env.net.resolvedUrl ++ ".zip")] }
        (by simp [COMPRESSED_DOT_FILE_EXTENSIONS])
      rw [heq] at he
      simp only at he
      refine ⟨?_, ?_, ?_⟩ <;> simp [he.1, he.2.1, he.2.2]
    next e' st5 heq =>
      have he := compressed_effects env d (env.net.resolvedUrl ++ ".zip") ".zip"
        (joinPath env.cachePath (computePathWithinCache d))
        { fs := st.fs, mtimes := st.mtimes, filepathMemo := st.filepathMemo,
          filenameMemo := some (SciDD.filename d), urlMemo := some env.net.resolvedUrl,
          pwcMemo := dictSet (dictSet [] env.cacheId (computePathWithinCache d)) env.cacheId
            (computePathWithinCache d),
          resolverCalls := st.resolverCalls + 1, getCalls := st.getCalls ++ [env.net.resolvedUrl],
          headCalls := st.headCalls ++ [env.net.resolvedUrl ++ ".gz"] ++
            [env.net.resolvedUrl ++ ".bz2"] ++ [env.net.resolvedUrl ++ ".zip"],
          warnings := st.warnings ++
            [Warn.locationMismatch env.net.resolvedUrl (env.net.resolvedUrl ++ ".zip")] }
        (by simp [COMPRESSED_DOT_FILE_EXTENSIONS])
      rw [heq] at he
      simp only at he
      refine ⟨?_, ?_, ?_⟩ <;> simp [he.1, he.2.1, he.2.2]

set_option maxHeartbeats 1000000 in
/-- 404 fallback, no probe hits: all three HEAD probes were issued, the
no-file warning is emitted, and `FileResourceCouldNotBeFound` is raised. -/
theorem downloadTo404_none (env : Env) (d : SciDD) (st : RState) (fuel : Nat)
    (hu : st.urlMemo = none) (hp : st.pwcMemo = []) (hf : st.filenameMemo = none)
    (hnc : fsLookup st.fs
      (joinPath (joinPath env.cachePath (computePathWithinCache d)) (SciDD.filename d)) = none)
    (hncomp : COMPRESSED_DOT_FILE_EXTENSIONS.contains
      (lowerStr (splitextExt env.net.resolvedUrl)) = false)
    (h404 : env.net.getStatus env.net.resolvedUrl = 404)
    (hgz : ¬ env.net.headStatus (env.net.resolvedUrl ++ ".gz") = 200)
    (hbz : ¬ env.net.headStatus (env.net.resolvedUrl ++ ".bz2") = 200)
    (hzip : ¬ env.net.headStatus (env.net.resolvedUrl ++ ".zip") = 200) :
    (downloadTo (fuel + 1) env d none st).1 = .err .fileResourceCouldNotBeFound ∧
    Warn.noFileFound env.net.resolvedUrl ∈ (downloadTo (fuel + 1) env d none st).2.warnings ∧
    (downloadTo (fuel + 1) env d none st).2.headCalls =
      st.headCalls ++ [env.net.resolvedUrl ++ ".gz", env.net.resolvedUrl ++ ".bz2",
        env.net.resolvedUrl ++ ".zip"] := by
  unfold downloadTo
  simp only [urlGet, pwcGet, expectedFilepath, isInCache, filenameGet, filenameSet,
    SciDDFileResource.pathWithinCache, SciDDCacheManager.pathWithinCache,
    dictGet_nil, dictGet_dictSet_self, hu, hp, hf, hnc, hncomp, h404]
  simp only [Bool.false_eq_true, false_and, if_false, Nat.reduceLT, reduceIte, if_true]
  simp only [COMPRESSED_DOT_FILE_EXTENSIONS, probeExtensions, hgz, hbz, hzip]
  refine ⟨?_, ?_, ?_⟩ <;> simp

/-! ### More concrete fixtures -/

/-- An empty filesystem, fresh resource. -/
def stEmpty : RState := RState.fresh []

/-- A server that 404s on the primary URL but has `<url>.gz`. -/
def net404 : Net :=
  { net0 with
    getStatus := fun u => if u = "http://host/path/NAME.fits" then 404 else 200,
    headStatus := fun u => if u = "http://host/path/NAME.fits.gz" then 200 else 404 }

/-- `env0` pointed at `net404`. -/
def env404 : Env := { env0 with net := net404 }

/-- A server that sends an unparsable `Last-Modified` header. -/
def netBad : Net := { net0 with lastModified := fun _ => some "garbage" }

/-- `env0` pointed at `netBad`. -/
def envBad : Env := { env0 with net := netBad }

/-- A server whose file for `d0` lives at a `.gz` URL. -/
def netGz : Net := { net0 with resolvedUrl := "http://host/path/NAME.fits.gz" }

/-- `env0` pointed at `netGz`. -/
def envGz : Env := { env0 with net := netGz }

/-- A server that sends a well-formed `Last-Modified` header. -/
def netLM : Net := { net0 with lastModified := fun _ => some "Mon, 15 Mar 2021 12:34:56 GMT" }

/-- `env0` pointed at `netLM`. -/
def envLM : Env := { env0 with net := netLM }

/-- **C4 (amended).**  When the file is already cached with non-zero size,
`downloadTo` returns the cached path without issuing any GET or HEAD request
— but it *does* resolve the URL through the resolver exactly once (the entry
`logger.debug` f-string evaluates `self.url` before the cache check), so the
claim's "no network access including URL resolution" holds only for the
HTTP download traffic; `isInCache` followed immediately by `filepath`
triggers no network activity of any kind (no resolver call, GET or HEAD). -/
theorem C4_cached_download_no_http (env : Env) (d : SciDD) (st : RState) (fuel n : Nat)
    (hu : st.urlMemo = none) (hp : st.pwcMemo = []) (hf : st.filenameMemo = none)
    (hfp : st.filepathMemo = none)
    (hc : fsLookup st.fs
      (joinPath (joinPath env.cachePath (computePathWithinCache d)) (SciDD.filename d)) =
      some (n + 1)) :
    (downloadTo (fuel + 2) env d none st).1 =
      .ok (joinPath (joinPath env.cachePath (computePathWithinCache d)) (SciDD.filename d)) ∧
    (downloadTo (fuel + 2) env d none st).2.getCalls = st.getCalls ∧
    (downloadTo (fuel + 2) env d none st).2.headCalls = st.headCalls ∧
    (downloadTo (fuel + 2) env d none st).2.resolverCalls = st.resolverCalls + 1 ∧
    (isInCache env d st).1 = true ∧
    (filepathGet (fuel + 1) env d (isInCache env d st).2).1 =
      .ok (joinPath (joinPath env.cachePath (computePathWithinCache d)) (SciDD.filename d)) ∧
    (filepathGet (fuel + 1) env d (isInCache env d st).2).2.resolverCalls = st.resolverCalls ∧
    (filepathGet (fuel + 1) env d (isInCache env d st).2).2.getCalls = st.getCalls ∧
    (filepathGet (fuel + 1) env d (isInCache env d st).2).2.headCalls = st.headCalls := by
  have hd := downloadTo_cached_eval env d st fuel n hu hp hf hfp hc
  have hi := isInCache_then_filepath_eval env d st fuel n hp hf hfp hc
  rw [hd]
  exact ⟨rfl, rfl, rfl, rfl, hi.1, hi.2.2.2.2.1, hi.2.2.2.2.2.1, hi.2.2.2.2.2.2.1,
    hi.2.2.2.2.2.2.2⟩

/-- Witness for `C4_cached_download_no_http` at the cached fixture. -/
theorem C4_cached_download_no_http_witness :
    fsLookup stCached.fs
      (joinPath (joinPath env0.cachePath (computePathWithinCache d0)) (SciDD.filename d0)) =
      some (4 + 1) ∧
    (downloadTo 2 env0 d0 none stCached).2.getCalls = stCached.getCalls ∧
    (isInCache env0 d0 stCached).1 = true ∧
    (filepathGet 1 env0 d0 (isInCache env0 d0 stCached).2).2.resolverCalls =
      stCached.resolverCalls := by
  have h := C4_cached_download_no_http env0 d0 stCached 0 4 rfl rfl rfl rfl (by decide)
  exact ⟨by decide, h.2.1, h.2.2.2.2.1, h.2.2.2.2.2.2.1⟩

/-- **C4 (counterexample).**  The claim as stated is false: on an
already-cached non-empty file, `downloadTo` still performs network access,
namely URL resolution — the resolver-call count rises from 0 to 1 even
though the file was served from the cache. -/
theorem C4_cached_download_counterexample :
    fsLookup stCached.fs expected0 = some 5 ∧
    stCached.resolverCalls = 0 ∧
    (downloadTo 2 env0 d0 none stCached).1 = .ok expected0 ∧
    (downloadTo 2 env0 d0 none stCached).2.resolverCalls = 1 :=
  ⟨by decide, by decide, by decide, by decide⟩

/-- **C6.**  On a 404 from the primary URL, the engine HEAD-probes
`url + ext` for each known compressed extension `.gz`, `.bz2`, `.zip` in
order; at the first probe answering 200 it emits the location-mismatch
warning and retries the download with a GET against that URL (probing no
further extension); when no probe answers 200 it raises
`FileResourceCouldNotBeFound` after warning. -/
theorem C6_404_compressed_fallback (env : Env) (d : SciDD) (st : RState) (fuel : Nat)
    (hu : st.urlMemo = none) (hp : st.pwcMemo = []) (hf : st.filenameMemo = none)
    (hnc : fsLookup st.fs
      (joinPath (joinPath env.cachePath (computePathWithinCache d)) (SciDD.filename d)) = none)
    (hncomp : COMPRESSED_DOT_FILE_EXTENSIONS.contains
      (lowerStr (splitextExt env.net.resolvedUrl)) = false)
    (h404 : env.net.getStatus env.net.resolvedUrl = 404) :
    (env.net.headStatus (env.net.resolvedUrl ++ ".gz") = 200 →
      Warn.locationMismatch env.net.resolvedUrl (env.net.resolvedUrl ++ ".gz") ∈
        (downloadTo (fuel + 1) env d none st).2.warnings ∧
      (env.net.resolvedUrl ++ ".gz") ∈ (downloadTo (fuel + 1) env d none st).2.getCalls ∧
      (downloadTo (fuel + 1) env d none st).2.headCalls =
        st.headCalls ++ [env.net.resolvedUrl ++ ".gz"]) ∧
    (¬ env.net.headStatus (env.net.resolvedUrl ++ ".gz") = 200 →
     env.net.headStatus (env.net.resolvedUrl ++ ".bz2") = 200 →
      Warn.locationMismatch env.net.resolvedUrl (env.net.resolvedUrl ++ ".bz2") ∈
        (downloadTo (fuel + 1) env d none st).2.warnings ∧
      (env.net.resolvedUrl ++ ".bz2") ∈ (downloadTo (fuel + 1) env d none st).2.getCalls ∧
      (downloadTo (fuel + 1) env d none st).2.headCalls =
        st.headCalls ++ [env.net.resolvedUrl ++ ".gz", env.net.resolvedUrl ++ ".bz2"]) ∧
    (¬ env.net.headStatus (env.net.resolvedUrl ++ ".gz") = 200 →
     ¬ env.net.headStatus (env.net.resolvedUrl ++ ".bz2") = 200 →
     env.net.headStatus (env.net.resolvedUrl ++ ".zip") = 200 →
      Warn.locationMismatch env.net.resolvedUrl (env.net.resolvedUrl ++ ".zip") ∈
        (downloadTo (fuel + 1) env d none st).2.warnings ∧
      (env.net.resolvedUrl ++ ".zip") ∈ (downloadTo (fuel + 1) env d none st).2.getCalls ∧
      (downloadTo (fuel + 1) env d none st).2.headCalls =
        st.headCalls ++ [env.net.resolvedUrl ++ ".gz", env.net.resolvedUrl ++ ".bz2",
          env.net.resolvedUrl ++ ".zip"]) ∧
    (¬ env.net.headStatus (env.net.resolvedUrl ++ ".gz") = 200 →
     ¬ env.net.headStatus (env.net.resolvedUrl ++ ".bz2") = 200 →
     ¬ env.net.headStatus (env.net.resolvedUrl ++ ".zip") = 200 →
      (downloadTo (fuel + 1) env d none st).1 = .err .fileResourceCouldNotBeFound ∧
      Warn.noFileFound env.net.resolvedUrl ∈ (downloadTo (fuel + 1) env d none st).2.warnings ∧
      (downloadTo (fuel + 1) env d none st).2.headCalls =
        st.headCalls ++ [env.net.resolvedUrl ++ ".gz", env.net.resolvedUrl ++ ".bz2",
          env.net.resolvedUrl ++ ".zip"]) :=
  ⟨fun hgz => downloadTo404_gz env d st fuel hu hp hf hnc hncomp h404 hgz,
   fun hgz hbz => downloadTo404_bz2 env d st fuel hu hp hf hnc hncomp h404 hgz hbz,
   fun hgz hbz hzip => downloadTo404_zip env d st fuel hu hp hf hnc hncomp h404 hgz hbz hzip,
   fun hgz hbz hzip => downloadTo404_none env d st fuel hu hp hf hnc hncomp h404 hgz hbz hzip⟩

/-- Witness for `C6_404_compressed_fallback` at the 404-with-gz fixture. -/
theorem C6_404_compressed_fallback_witness :
    env404.net.getStatus env404.net.resolvedUrl = 404 ∧
    env404.net.headStatus (env404.net.resolvedUrl ++ ".gz") = 200 ∧
    Warn.locationMismatch env404.net.resolvedUrl (env404.net.resolvedUrl ++ ".gz") ∈
      (downloadTo 1 env404 d0 none stEmpty).2.warnings ∧
    (env404.net.resolvedUrl ++ ".gz") ∈ (downloadTo 1 env404 d0 none stEmpty).2.getCalls := by
  have h := (C6_404_compressed_fallback env404 d0 stEmpty 0 rfl rfl rfl (by decide)
    (by decide) (by decide)).1 (by decide)
  exact ⟨by decide, by decide, h.1, h.2.1⟩

set_option maxHeartbeats 1000000 in
/-- **C8 (amended).**  After a successful streamed download the local file's
modification time is set to the parsed `Last-Modified` header when the header
is present and parses; an *absent* header is tolerated (the `KeyError` is
caught and the download still succeeds, leaving the times untouched); an
unparsable header, however, raises `ValueError` (see the counterexample). -/
theorem C8_last_modified_best_effort (env : Env) (d : SciDD) (st : RState) (fuel : Nat)
    (hu : st.urlMemo = none) (hp : st.pwcMemo = []) (hf : st.filenameMemo = none)
    (hnc : fsLookup st.fs
      (joinPath (joinPath env.cachePath (computePathWithinCache d)) (SciDD.filename d)) = none)
    (hdec : env.cacheAttrs.decompressDownloads = false)
    (hst : env.net.getStatus env.net.resolvedUrl = 200) :
    (env.net.lastModified env.net.resolvedUrl = none →
      (downloadTo (fuel + 1) env d none st).1 =
        .ok (joinPath (joinPath env.cachePath (computePathWithinCache d))
          (basename env.net.resolvedUrl)) ∧
      (downloadTo (fuel + 1) env d none st).2.mtimes = st.mtimes) ∧
    (∀ s t, env.net.lastModified env.net.resolvedUrl = some s →
      strptimeLastModified s = some t →
      (downloadTo (fuel + 1) env d none st).1 =
        .ok (joinPath (joinPath env.cachePath (computePathWithinCache d))
          (basename env.net.resolvedUrl)) ∧
      mtimeLookup (downloadTo (fuel + 1) env d none st).2.mtimes
        (joinPath (joinPath env.cachePath (computePathWithinCache d))
          (basename env.net.resolvedUrl)) = some t) ∧
    (∀ mt fp, set_file_time_to_last_modified mt fp none = some mt) := by
  refine ⟨fun hlm => ?_, fun s t hs hparse => ?_, fun mt fp => rfl⟩
  · unfold downloadTo
    simp only [urlGet, pwcGet, expectedFilepath, isInCache, filenameGet,
      SciDDFileResource.pathWithinCache, SciDDCacheManager.pathWithinCache,
      finishStreamedDownload, set_file_time_to_last_modified,
      hu, hp, hf, hdec, hst, hlm, dictGet_nil, dictGet_dictSet_self]
    simp [hnc, hst, hlm, set_file_time_to_last_modified, dictGet_dictSet_self]
  · unfold downloadTo
    simp only [urlGet, pwcGet, expectedFilepath, isInCache, filenameGet,
      SciDDFileResource.pathWithinCache, SciDDCacheManager.pathWithinCache,
      finishStreamedDownload, set_file_time_to_last_modified,
      hu, hp, hf, hdec, hst, hs, hparse, dictGet_nil, dictGet_dictSet_self]
    simp [hnc, hst, set_file_time_to_last_modified, hs, hparse, dictGet_dictSet_self,
      mtimeLookup_cons_self]

/-- Witness for `C8_last_modified_best_effort` with a parsable header. -/
theorem C8_last_modified_best_effort_witness :
    envLM.net.lastModified envLM.net.resolvedUrl = some "Mon, 15 Mar 2021 12:34:56 GMT" ∧
    strptimeLastModified "Mon, 15 Mar 2021 12:34:56 GMT" = some ⟨15, 3, 2021, 12, 34, 56⟩ ∧
    mtimeLookup (downloadTo 1 envLM d0 none stEmpty).2.mtimes
      (joinPath (joinPath envLM.cachePath (computePathWithinCache d0))
        (basename envLM.net.resolvedUrl)) = some ⟨15, 3, 2021, 12, 34, 56⟩ := by
  have h := (C8_last_modified_best_effort envLM d0 stEmpty 0 rfl rfl rfl (by decide)
    (by decide) (by decide)).2.1 "Mon, 15 Mar 2021 12:34:56 GMT" ⟨15, 3, 2021, 12, 34, 56⟩
    (by decide) (by decide)
  exact ⟨by decide, by decide, h.2⟩

/-- **C8 (counterexample).**  A present but unparsable `Last-Modified` header
makes the download fail with the uncaught `ValueError` from `time.strptime`,
refuting "does not fail when the header is ... unparsable". -/
theorem C8_unparsable_header_counterexample :
    netBad.lastModified netBad.resolvedUrl = some "garbage" ∧
    strptimeLastModified "garbage" = none ∧
    (downloadTo 2 envBad d0 none stEmpty).1 = .err .valueError :=
  ⟨by decide, by decide, by decide⟩

set_option maxHeartbeats 1000000 in
/-- **C10.**  A freshly constructed cache manager has `decompressDownloads`
defaulting to `False`; with that default, a file found compressed on the
remote server is streamed into the cache as-is: it is stored under the
remote basename (compressed extension kept) with the raw response body,
not decompressed. -/
theorem C10_decompress_default (env : Env) (d : SciDD) (st : RState) (fuel : Nat)
    (hattrs : env.cacheAttrs = CacheManagerAttrs.init)
    (hu : st.urlMemo = none) (hp : st.pwcMemo = []) (hf : st.filenameMemo = none)
    (hnc : fsLookup st.fs
      (joinPath (joinPath env.cachePath (computePathWithinCache d)) (SciDD.filename d)) = none)
    (hcomp : COMPRESSED_DOT_FILE_EXTENSIONS.contains
      (lowerStr (splitextExt env.net.resolvedUrl)) = true)
    (hst : env.net.getStatus env.net.resolvedUrl = 200)
    (hlm : env.net.lastModified env.net.resolvedUrl = none) :
    CacheManagerAttrs.init.decompressDownloads = false ∧
    (downloadTo (fuel + 1) env d none st).1 =
      .ok (joinPath (joinPath env.cachePath (computePathWithinCache d))
        (basename env.net.resolvedUrl)) ∧
    fsLookup (downloadTo (fuel + 1) env d none st).2.fs
      (joinPath (joinPath env.cachePath (computePathWithinCache d))
        (basename env.net.resolvedUrl)) =
      some (env.net.bodySize env.net.resolvedUrl) := by
  have hdec : env.cacheAttrs.decompressDownloads = false := by rw [hattrs]; rfl
  refine ⟨rfl, ?_, ?_⟩ <;>
    (unfold downloadTo
     simp only [urlGet, pwcGet, expectedFilepath, isInCache, filenameGet,
       SciDDFileResource.pathWithinCache, SciDDCacheManager.pathWithinCache,
       finishStreamedDownload, set_file_time_to_last_modified,
       hu, hp, hf, hdec, hst, hlm, dictGet_nil, dictGet_dictSet_self]
     simp [hnc, hst, hlm, set_file_time_to_last_modified, dictGet_dictSet_self,
       fsLookup_fsWrite_self])

/-- Witness for `C10_decompress_default` at the `.gz`-URL fixture. -/
theorem C10_decompress_default_witness :
    envGz.cacheAttrs = CacheManagerAttrs.init ∧
    COMPRESSED_DOT_FILE_EXTENSIONS.contains
      (lowerStr (splitextExt envGz.net.resolvedUrl)) = true ∧
    (downloadTo 1 envGz d0 none stEmpty).1 =
      .ok (joinPath (joinPath envGz.cachePath (computePathWithinCache d0))
        (basename envGz.net.resolvedUrl)) ∧
    fsLookup (downloadTo 1 envGz d0 none stEmpty).2.fs
      (joinPath (joinPath envGz.cachePath (computePathWithinCache d0))
        (basename envGz.net.resolvedUrl)) =
      some (envGz.net.bodySize envGz.net.resolvedUrl) := by
  have h := C10_decompress_default envGz d0 stEmpty 0 rfl rfl rfl rfl (by decide)
    (by decide) (by decide) (by decide)
  exact ⟨rfl, by decide, h.2.1, h.2.2⟩

end SciDDCore
